import Mathlib

/-!
Verification of `run_op_ssh.py` (bepri/dotfiles): a script that turns
1Password SSH-key items into an SSH configuration directory.  The pure,
decidable core — entry construction (`SSHConfigEntry.__init__`), stanza
serialization (`SSHConfigEntry.serialize`), the config-file write sequence
(`make_config`), and the confirmation prompt of `main` — is embedded below
as executable Lean functions over `String`/`List Char`.

Python strings are modelled as Lean `String`s (lists of characters); the
Python character classes `\w`/`\s` and the `str.lower`/`str.strip` methods
are modelled on their ASCII fragment, which covers every input appearing in
the script and in the theorems below.
-/

/-! ### Basic Python string operations -/

/-- Python `str.split(sep)` for a one-character separator, on character
lists: splitting the empty string yields one empty piece, and a trailing
separator yields a trailing empty piece, exactly as in Python. -/
def splitCharList (sep : Char) : List Char → List (List Char)
  | [] => [[]]
  | c :: cs =>
    match splitCharList sep cs with
    | [] => [[]]
    | h :: t => if c = sep then [] :: h :: t else (c :: h) :: t

/-- Python `blob.split("\n")` (the parameter-blob line split in `__init__`). -/
def pyLines (s : String) : List String := (splitCharList '\n' s.data).map String.mk

/-- Python `s.split(",")` (used on `options` in `serialize`). -/
def pySplitComma (s : String) : List String := (splitCharList ',' s.data).map String.mk

/-- Split a list at the first occurrence of `sep`; `none` when `sep` is absent. -/
def splitAtFirst (sep : Char) : List Char → Option (List Char × List Char)
  | [] => none
  | c :: cs =>
    if c = sep then some ([], cs)
    else (splitAtFirst sep cs).map (fun p => (c :: p.1, p.2))

/-- Python `param.split(" ", 1)` when it yields two pieces; `none` models the
one-piece result whose tuple unpacking raises `ValueError`. -/
def splitFirstSpace (s : String) : Option (String × String) :=
  match splitAtFirst ' ' s.data with
  | some p => some (String.mk p.1, String.mk p.2)
  | none => none

/-- Python single-character `str.replace(a, b)`, which rewrites every
occurrence; for one-character arguments this is a character map. -/
def pyReplaceChar (a b : Char) (s : String) : String :=
  String.mk (s.data.map (fun c => if c = a then b else c))

/-! ### The key-name regex

`re.match` with the pattern `^op:\/\/(?:\w+\s*)*?\/((?:\w+\s*)*)/.*$` is
embedded as a backtracking matcher specialised to this pattern.  Each sub-matcher returns
the list of its `(consumed, rest)` alternatives in the engine's backtracking
priority order (lazy: fewest repetitions first; greedy: most first), and the
overall result is the first full match, as in CPython's `re`. -/

/-- Python `\w` on its ASCII fragment: letters, digits and underscore. -/
def isWordChar (c : Char) : Bool := c.isAlphanum || c = '_'

/-- Python `\s` on its ASCII fragment. -/
def isSpaceChar (c : Char) : Bool :=
  c = ' ' || c = '\t' || c = '\n' || c = '\r' || c = '\x0b' || c = '\x0c'

/-- Alternatives of a greedy `p*`, longest first. -/
def starSplits (p : Char → Bool) (s : List Char) : List (List Char × List Char) :=
  (List.range ((s.takeWhile p).length + 1)).reverse.map (fun k => (s.take k, s.drop k))

/-- Alternatives of a greedy `p+`, longest first. -/
def plusSplits (p : Char → Bool) (s : List Char) : List (List Char × List Char) :=
  (List.range (s.takeWhile p).length).reverse.map (fun k => (s.take (k + 1), s.drop (k + 1)))

/-- Alternatives of one repetition `\w+\s*`, in backtracking order. -/
def rep1Splits (s : List Char) : List (List Char × List Char) :=
  (plusSplits isWordChar s).flatMap (fun pr =>
    (starSplits isSpaceChar pr.2).map (fun qr => (pr.1 ++ qr.1, qr.2)))

/-- Alternatives of the lazy `(?:\w+\s*)*?`: zero repetitions first.  Each
repetition consumes at least one character, so `length + 1` fuel is exact. -/
def lazyStarSplits : Nat → List Char → List (List Char × List Char)
  | 0, s => [([], s)]
  | fuel + 1, s =>
    ([], s) :: (rep1Splits s).flatMap (fun pr =>
      (lazyStarSplits fuel pr.2).map (fun qr => (pr.1 ++ qr.1, qr.2)))

/-- Alternatives of the greedy `(?:\w+\s*)*`: most repetitions first. -/
def greedyStarSplits : Nat → List Char → List (List Char × List Char)
  | 0, s => [([], s)]
  | fuel + 1, s =>
    ((rep1Splits s).flatMap (fun pr =>
      (greedyStarSplits fuel pr.2).map (fun qr => (pr.1 ++ qr.1, qr.2)))) ++ [([], s)]

/-- The trailing `.*$` (no DOTALL, no MULTILINE): the remaining text matches
iff it contains no newline, or is a newline-free prefix followed by one final
newline. -/
def tailOK (t : List Char) : Bool :=
  t.all (fun c => c != '\n') ||
  (match t.getLast? with
   | some c => c == '\n' && t.dropLast.all (fun c => c != '\n')
   | none => false)

/-- Group 1 of matching `^op:\/\/(?:\w+\s*)*?\/((?:\w+\s*)*)/.*$` against the
reference, or `none` when the whole pattern does not match.  (When the pattern matches,
group 1 always exists, so `.group(1)` never raises `IndexError`.) -/
def refGroup1 (ref : String) : Option String :=
  match ref.data with
  | 'o' :: 'p' :: ':' :: '/' :: '/' :: s1 =>
    (lazyStarSplits (s1.length + 1) s1).findSome? (fun ar =>
      match ar.2 with
      | '/' :: r2 =>
        (greedyStarSplits (r2.length + 1) r2).findSome? (fun gr =>
          match gr.2 with
          | '/' :: t => if tailOK t then some (String.mk gr.1) else none
          | _ => none)
      | _ => none)
  | _ => none

/-! ### Entry construction (`SSHConfigEntry.__init__`) -/

/-- How `__init__` can raise: `attributeError` models the uncaught
`AttributeError` from `re.match(...).group(1)` when the match is `None`
(only `IndexError` is caught); `unpackError` models the `ValueError` from
`key, value = param.split(" ", 1)` on a line without a space; `valueError`
is the explicit `raise ValueError(...)` for a missing `url`. -/
inductive InitError where
  | attributeError : InitError
  | unpackError : String → InitError
  | valueError : String → InitError
deriving DecidableEq

/-- The attribute state of a half-constructed entry during the parameter
loop: the fields `__init__` has assigned before the loop, plus a map of the
extra attributes created by `setattr` for unrecognized field names. -/
structure ParamState where
  key : String
  keyname : String
  options : Option String
  user : Option String
  aliases : Option String
  url : Option String
  extra : List (String × String)
deriving DecidableEq

/-- Overwrite-or-append for the extra-attribute map (Python `setattr`
overwrites an existing attribute of the same name). -/
def setExtra : List (String × String) → String → String → List (String × String)
  | [], k, v => [(k, v)]
  | (k', v') :: rest, k, v =>
    if k' = k then (k, v) :: rest else (k', v') :: setExtra rest k v

/-- Python `setattr(self, key, value)` on the attribute names the class
uses: the six data attributes assigned before the loop, or a fresh
attribute. -/
def setAttr (st : ParamState) (k v : String) : ParamState :=
  if k = "options" then { st with options := some v }
  else if k = "user" then { st with user := some v }
  else if k = "aliases" then { st with aliases := some v }
  else if k = "url" then { st with url := some v }
  else if k = "key" then { st with key := v }
  else if k = "keyname" then { st with keyname := v }
  else { st with extra := setExtra st.extra k v }

/-- The parameter loop: for each param, `key, value = param.split(" ", 1)`
then `setattr(self, key, value)` — the first line without a space aborts
with the unpacking `ValueError`. -/
def processParams : ParamState → List String → Except InitError ParamState
  | st, [] => .ok st
  | st, p :: rest =>
    match splitFirstSpace p with
    | none => .error (.unpackError p)
    | some kv => processParams (setAttr st kv.1 kv.2) rest

/-- Message of the `raise ValueError` for a missing `url` field. -/
def urlMsg (n : String) : String :=
  "Key does not specify a URL to connect to! Add a URL field to the 1Password entry for " ++ n

/-- The constructed record: as in the source, `url` (the host) is the only
required field, and `keyname` has had spaces replaced by underscores. -/
structure SSHConfigEntry where
  key : String
  keyname : String
  options : Option String
  user : Option String
  aliases : Option String
  url : String
  extra : List (String × String)
deriving DecidableEq

/-- Model of `SSHConfigEntry.__init__`, taking the two hardcoded fields of
the CLI output: the value of field 0 (the public key), the reference of
field 0, and the value of field 1 (the parameter blob).  When the reference does not match
the pattern, `.group(1)` raises `AttributeError` (the `except IndexError`
does not catch it); when it matches, group 1 exists, so the caught
`IndexError` — and with it the `self.keyname == None` fallback to the url —
is dead code, and `keyname` is a string from here on. -/
def SSHConfigEntry.init (key ref blobValue : String) : Except InitError SSHConfigEntry :=
  match refGroup1 ref with
  | none => .error .attributeError
  | some g =>
    match processParams ⟨key, g, none, none, none, none, []⟩ (pyLines blobValue) with
    | .error e => .error e
    | .ok st =>
      match st.url with
      | none => .error (.valueError (urlMsg st.keyname))
      | some u =>
        .ok ⟨st.key, pyReplaceChar ' ' '_' st.keyname, st.options, st.user, st.aliases, u, st.extra⟩

/-! ### Serialization (`SSHConfigEntry.serialize`, `_make_key`) -/

/-- Whether the second list starts with the first, on character lists. -/
def listIsPrefixOf : List Char → List Char → Bool
  | [], _ => true
  | _ :: _, [] => false
  | a :: as, b :: bs => a == b && listIsPrefixOf as bs

/-- Folding step of POSIX `os.path.join`: an absolute component restarts
the path; otherwise a slash separator is inserted unless one is already
there. -/
def osPathJoinTwo (acc p : String) : String :=
  if listIsPrefixOf ['/'] p.data then p
  else if acc = "" || listIsPrefixOf ['/'] acc.data.reverse then acc ++ p
  else acc ++ "/" ++ p

/-- POSIX `os.path.join` over a list of components. -/
def osPathJoin (parts : List String) : String := parts.foldl osPathJoinTwo ""

/-- Text of the alias slot: `self.aliases.replace(",", " ") if self.aliases
else ""` — `None` and the empty string are both falsy. -/
def aliasText : Option String → String
  | some a => if a = "" then "" else pyReplaceChar ',' ' ' a
  | none => ""

/-- The optional User line (guarded by `if self.user:` — truthiness again). -/
def userText : Option String → String
  | some u => if u = "" then "" else "\tUser " ++ u ++ "\n"
  | none => ""

/-- The option-line loop of serialize: one tab-indented line per option. -/
def optLinesText : List String → String
  | [] => ""
  | o :: rest => "\t" ++ o ++ "\n" ++ optLinesText rest

/-- The verbatim option lines (`if self.options:`). -/
def optionsText : Option String → String
  | some s => if s = "" then "" else optLinesText (pySplitComma s)
  | none => ""

/-- The string `serialize` returns.  The `path` argument of the Python
method is used only by the `_make_key` side effect (modelled separately as
`SSHConfigEntry.make_key`); the returned text never mentions it. -/
def SSHConfigEntry.serialize (e : SSHConfigEntry) (path : String) : String :=
  "Host " ++ e.url ++ " " ++ aliasText e.aliases ++ "\n"
    ++ "\tHostName " ++ e.url ++ "\n"
    ++ "\tIdentityFile \"" ++ osPathJoin ["%d", ".ssh", e.keyname ++ ".pub"] ++ "\"\n"
    ++ "\tIdentitiesOnly yes\n"
    ++ userText e.user
    ++ optionsText e.options

/-- Model of `_make_key`: the path and contents of the key file it writes. -/
def SSHConfigEntry.make_key (e : SSHConfigEntry) (path : String) : String × String :=
  (osPathJoin [path, e.keyname ++ ".pub"], e.key)

/-! ### The config file (`make_config`) -/

/-- First header line written to the config file. -/
def headerWrite1 : String :=
  "# This file was automatically generated by a Chezmoi script. Changes will be overwritten if `chezmoi apply` or `chezmoi update` is ran.\n"

/-- Second header line written to the config file. -/
def headerWrite2 : String :=
  "# You can find the script somewhere in the directory opened with `chezmoi cd`.\n\n"

/-- The global wildcard stanza written when not under WSL. -/
def globalStanza : String := "Host *\n\tIdentityAgent ~/.1password/agent.sock\n"

/-- The per-entry writes of the `for entry in entries` loop: a blank line
then the serialized stanza, in input order. -/
def entrySectionWrites : List SSHConfigEntry → String → List String
  | [], _ => []
  | e :: es, p => "\n" :: e.serialize p :: entrySectionWrites es p

/-- The sequence of `fout.write` calls `make_config` makes on the config
file, in order; `wsl` is the result of `is_wsl()`. -/
def makeConfigWrites (wsl : Bool) (entries : List SSHConfigEntry) (p : String) : List String :=
  [headerWrite1, headerWrite2] ++ (if wsl then [] else [globalStanza]) ++ entrySectionWrites entries p

/-- Occurrences of a given write in a write sequence. -/
def countOcc (g : String) : List String → Nat
  | [] => 0
  | s :: rest => (if s = g then 1 else 0) + countOcc g rest

/-! ### The confirmation prompt (`main`) -/

/-- Python `str.lower` on its ASCII fragment. -/
def pyLower (s : String) : String := String.mk (s.data.map Char.toLower)

/-- The characters Python `str.strip()` removes (ASCII fragment). -/
def isPySpace (c : Char) : Bool :=
  c = ' ' || c = '\t' || c = '\n' || c = '\r' || c = '\x0b' || c = '\x0c'

/-- Python `str.strip()` on its ASCII fragment. -/
def pyStrip (s : String) : String :=
  String.mk (((s.data.dropWhile isPySpace).reverse.dropWhile isPySpace).reverse)

/-- The prompt answer as the loop sees it, after `.lower().strip()`. -/
def lowerStrip (s : String) : String := pyStrip (pyLower s)

/-- What one iteration of the `while True: match input(...)` loop does. -/
inductive PromptStep where
  | proceed : PromptStep
  | exitZero : PromptStep
  | retry : PromptStep
deriving DecidableEq

/-- One iteration of the confirmation loop: the cases "y" and "" break,
the case "n" calls `sys.exit(0)`, and anything else repeats. -/
def confirmStep (s : String) : PromptStep :=
  if lowerStrip s = "y" ∨ lowerStrip s = "" then .proceed
  else if lowerStrip s = "n" then .exitZero
  else .retry

/-- The whole prompt loop over a stream of answers: `some true` = proceed,
`some false` = `sys.exit(0)`, `none` = the stream ran out (the loop blocks). -/
def promptLoop : List String → Option Bool
  | [] => none
  | s :: rest =>
    match confirmStep s with
    | .proceed => some true
    | .exitZero => some false
    | .retry => promptLoop rest

/-- Whether `main` reaches `make_config` (the only filesystem mutation):
when the target directory exists, only after the prompt loop breaks. -/
def mainMutates (dirExists : Bool) (inputs : List String) : Bool :=
  if dirExists then
    match promptLoop inputs with
    | some true => true
    | _ => false
  else true

/-! ### Characterizations used by the theorem statements -/

/-- Value of the last `url` line of the blob (each later `setattr` overwrites). -/
def urlUpd (acc : Option String) (l : String) : Option String :=
  match splitFirstSpace l with
  | some kv => if kv.1 = "url" then some kv.2 else acc
  | none => acc

/-- The text after the first space of the last `url` line, if any. -/
def lastUrlValue (blob : String) : Option String := (pyLines blob).foldl urlUpd none

/-- Last `keyname` override of the blob, starting from the captured group. -/
def keynameUpd (acc : String) (l : String) : String :=
  match splitFirstSpace l with
  | some kv => if kv.1 = "keyname" then kv.2 else acc
  | none => acc

/-- The key-name label in effect after the parameter loop. -/
def keynameAfter (g : String) (blob : String) : String := (pyLines blob).foldl keynameUpd g

/-- Whether a line carries the `url` field name. -/
def lineIsUrl (l : String) : Bool :=
  match splitFirstSpace l with
  | some kv => if kv.1 = "url" then true else false
  | none => false

/-- Whether some blob line carries the `url` field. -/
def hasUrlLine (blob : String) : Bool := (pyLines blob).any lineIsUrl

/-- Whether every blob line contains a space (so no line crashes unpacking). -/
def allLinesSpaced (blob : String) : Bool :=
  (pyLines blob).all (fun l => (splitFirstSpace l).isSome)

/-- Lines that touch an attribute the class itself uses: a recognized field
name, a built-in data attribute (`key`, `keyname`), or a method name
(`serialize`, `_make_key`).  Lines without a space are also kept (they crash
construction).  Every other line only creates a fresh extra attribute. -/
def keepLine (l : String) : Bool :=
  match splitFirstSpace l with
  | none => true
  | some kv =>
    if kv.1 = "options" ∨ kv.1 = "user" ∨ kv.1 = "aliases" ∨ kv.1 = "url" ∨
       kv.1 = "key" ∨ kv.1 = "keyname" ∨ kv.1 = "serialize" ∨ kv.1 = "_make_key"
    then true else false

/-- One parameter-loop step, ignoring the crash case (used to state folds). -/
def paramStep (st : ParamState) (l : String) : ParamState :=
  match splitFirstSpace l with
  | some kv => setAttr st kv.1 kv.2
  | none => st

/-- Agreement of two parameter states on everything except the extra map. -/
def agreeCore (s t : ParamState) : Prop :=
  s.key = t.key ∧ s.keyname = t.keyname ∧ s.options = t.options ∧
  s.user = t.user ∧ s.aliases = t.aliases ∧ s.url = t.url

/-- The tail of a serialized stanza after its `Host` line. -/
def serializeTail (e : SSHConfigEntry) : String :=
  "\tHostName " ++ e.url ++ "\n"
    ++ "\tIdentityFile \"" ++ osPathJoin ["%d", ".ssh", e.keyname ++ ".pub"] ++ "\"\n"
    ++ "\tIdentitiesOnly yes\n"
    ++ userText e.user
    ++ optionsText e.options

/-! ### Generic instances and string lemmas -/

instance {ε α : Type} [DecidableEq ε] [DecidableEq α] : DecidableEq (Except ε α) := fun a b =>
  match a, b with
  | .error e, .error f =>
    match decEq e f with
    | isTrue h => isTrue (h ▸ rfl)
    | isFalse h => isFalse (fun hh => h (Except.error.inj hh))
  | .ok x, .ok y =>
    match decEq x y with
    | isTrue h => isTrue (h ▸ rfl)
    | isFalse h => isFalse (fun hh => h (Except.ok.inj hh))
  | .error _, .ok _ => isFalse (fun hh => Except.noConfusion hh)
  | .ok _, .error _ => isFalse (fun hh => Except.noConfusion hh)

theorem strExt (a b : String) (h : a.data = b.data) : a = b := by
  cases a; cases b; exact congrArg String.mk h

theorem strDataAppend (a b : String) : (a ++ b).data = a.data ++ b.data := rfl

/-! ### Lemmas about the parameter loop -/

theorem setAttr_url (st : ParamState) (k v : String) :
    (setAttr st k v).url = if k = "url" then some v else st.url := by
  unfold setAttr
  split_ifs with h1 h2 h3 h4 h5 h6 <;> simp_all

theorem setAttr_keyname (st : ParamState) (k v : String) :
    (setAttr st k v).keyname = if k = "keyname" then v else st.keyname := by
  unfold setAttr
  split_ifs with h1 h2 h3 h4 h5 h6 <;> simp_all

theorem setAttr_unrec (st : ParamState) (k v : String)
    (h : ¬(k = "options" ∨ k = "user" ∨ k = "aliases" ∨ k = "url" ∨ k = "key" ∨ k = "keyname")) :
    setAttr st k v = { st with extra := setExtra st.extra k v } := by
  unfold setAttr
  push_neg at h
  obtain ⟨h1, h2, h3, h4, h5, h6⟩ := h
  simp [h1, h2, h3, h4, h5, h6]

theorem setAttr_agree (s t : ParamState) (h : agreeCore s t) (k v : String) :
    agreeCore (setAttr s k v) (setAttr t k v) := by
  obtain ⟨h1, h2, h3, h4, h5, h6⟩ := h
  unfold setAttr agreeCore
  split_ifs <;> simp_all

theorem processParams_ok (ps : List String) : ∀ st st',
    processParams st ps = .ok st' → st' = ps.foldl paramStep st := by
  induction ps with
  | nil => intro st st' h; simpa [processParams] using h.symm
  | cons p rest ih =>
    intro st st' h
    unfold processParams at h
    cases hs : splitFirstSpace p with
    | none => rw [hs] at h; exact absurd h (by simp)
    | some kv =>
      rw [hs] at h
      have := ih _ _ h
      simp [List.foldl, paramStep, hs, this]

theorem processParams_allSpaced (ps : List String) : ∀ st,
    (∀ l ∈ ps, (splitFirstSpace l).isSome) →
    processParams st ps = .ok (ps.foldl paramStep st) := by
  induction ps with
  | nil => intro st _; rfl
  | cons p rest ih =>
    intro st hall
    have hp := hall p (by simp)
    cases hs : splitFirstSpace p with
    | none => rw [hs] at hp; simp at hp
    | some kv =>
      unfold processParams
      rw [hs]
      have hrest := ih (setAttr st kv.1 kv.2) (fun l hl => hall l (by simp [hl]))
      simpa [List.foldl, paramStep, hs] using hrest

theorem foldl_paramStep_url (ps : List String) : ∀ st : ParamState,
    (ps.foldl paramStep st).url = ps.foldl urlUpd st.url := by
  induction ps with
  | nil => intro st; rfl
  | cons p rest ih =>
    intro st
    rw [List.foldl_cons, List.foldl_cons, ih]
    congr 1
    unfold paramStep urlUpd
    cases hs : splitFirstSpace p with
    | none => rfl
    | some kv => rw [setAttr_url]

theorem foldl_paramStep_keyname (ps : List String) : ∀ st : ParamState,
    (ps.foldl paramStep st).keyname = ps.foldl keynameUpd st.keyname := by
  induction ps with
  | nil => intro st; rfl
  | cons p rest ih =>
    intro st
    rw [List.foldl_cons, List.foldl_cons, ih]
    congr 1
    unfold paramStep keynameUpd
    cases hs : splitFirstSpace p with
    | none => rfl
    | some kv => rw [setAttr_keyname]

/-- If no blob line carries the `url` field name, folding the url updates
leaves it unset. -/
theorem foldl_urlUpd_none (ls : List String)
    (h : ∀ l ∈ ls, lineIsUrl l = false) :
    ls.foldl urlUpd none = none := by
  induction ls with
  | nil => rfl
  | cons l rest ih =>
    have hl := h l (by simp)
    rw [List.foldl_cons]
    have hnone : urlUpd none l = none := by
      unfold urlUpd
      unfold lineIsUrl at hl
      cases hs : splitFirstSpace l with
      | none => rfl
      | some kv =>
        simp only [hs] at hl ⊢
        by_cases hk : kv.1 = "url"
        · rw [if_pos hk] at hl; simp at hl
        · rw [if_neg hk]
    rw [hnone]
    exact ih (fun l' hl' => h l' (by simp [hl']))

/-- Claim C1 (code bug): the claim says construction succeeds on a
non-matching reference string with `keyName` falling back to the host; in
the code `re.match` returns `None` there and `.group(1)` raises an uncaught
`AttributeError` (only `IndexError` is caught), so construction fails, even
with a valid `url` blob.  The matching half of the claim does hold: a
matching reference yields the captured segment with spaces replaced by
underscores. -/
theorem c1_nomatch_reference_crashes :
    SSHConfigEntry.init "PUBKEY" "not a reference" "url example.com" = .error .attributeError
      ∧ refGroup1 "not a reference" = none
      ∧ (SSHConfigEntry.init "PUBKEY" "op://Vault/My Key/field" "url example.com").map
          (fun e => e.keyname) = .ok "My_Key" :=
  ⟨by decide, by decide, by decide⟩

/-- Claim C2 (amended): whenever construction succeeds, `keyName` contains
no space character (every space has been replaced by an underscore); it may
however be empty or contain other whitespace, and the host may be empty, so
the stronger original invariant fails (see the counterexample). -/
theorem c2_keyname_no_space (key ref blob : String) (e : SSHConfigEntry)
    (h : SSHConfigEntry.init key ref blob = .ok e) : ' ' ∉ e.keyname.data := by
  unfold SSHConfigEntry.init at h
  cases hg : refGroup1 ref with
  | none => simp [hg] at h
  | some g =>
    simp only [hg] at h
    cases hp : processParams ⟨key, g, none, none, none, none, []⟩ (pyLines blob) with
    | error er => simp [hp] at h
    | ok st =>
      simp only [hp] at h
      cases hu : st.url with
      | none => simp [hu] at h
      | some u =>
        simp only [hu, Except.ok.injEq] at h
        subst h
        intro hmem
        have hmem' : ' ' ∈ (pyReplaceChar ' ' '_' st.keyname).data := hmem
        unfold pyReplaceChar at hmem'
        obtain ⟨c, _, hfc⟩ := List.mem_map.mp hmem'
        by_cases hcs : c = ' '
        · rw [if_pos hcs] at hfc; exact absurd hfc (by decide)
        · rw [if_neg hcs] at hfc; exact hcs hfc

/-- Claim C2, counterexample to the original invariant: with reference
`op://Vault/a<TAB>b/f` and blob `url ` (one trailing space) construction
succeeds, yet the host is the empty string and `keyName` contains a tab,
which is whitespace. -/
theorem c2_counterexample :
    (SSHConfigEntry.init "PUBKEY" "op://Vault/a\tb/f" "url ").map (fun e => (e.url, e.keyname))
        = .ok ("", "a\tb")
      ∧ '\t' ∈ ("a\tb" : String).data ∧ Char.isWhitespace '\t' = true :=
  ⟨by decide, by decide, by decide⟩

/-- Claim C2, witness: the amended theorem applied to a concrete entry. -/
theorem c2_witness :
    SSHConfigEntry.init "PUBKEY" "op://Vault/Key/field" "url example.com"
        = .ok ⟨"PUBKEY", "Key", none, none, none, "example.com", []⟩
      ∧ ' ' ∉ (SSHConfigEntry.mk "PUBKEY" "Key" none none none "example.com" []).keyname.data :=
  ⟨by decide, c2_keyname_no_space "PUBKEY" "op://Vault/Key/field" "url example.com"
    ⟨"PUBKEY", "Key", none, none, none, "example.com", []⟩ (by decide)⟩

/-- Claim C3 (amended): whenever construction succeeds, the host equals the
text after the first space of the last `url` line of the blob, exactly as
written — including any trailing whitespace that text carries; the code
never strips it (see the counterexample). -/
theorem c3_host_is_last_url_verbatim (key ref blob : String) (e : SSHConfigEntry)
    (h : SSHConfigEntry.init key ref blob = .ok e) :
    lastUrlValue blob = some e.url := by
  unfold SSHConfigEntry.init at h
  cases hg : refGroup1 ref with
  | none => simp [hg] at h
  | some g =>
    simp only [hg] at h
    cases hp : processParams ⟨key, g, none, none, none, none, []⟩ (pyLines blob) with
    | error er => simp [hp] at h
    | ok st =>
      simp only [hp] at h
      have hst := processParams_ok _ _ _ hp
      cases hu : st.url with
      | none => simp [hu] at h
      | some u =>
        simp only [hu, Except.ok.injEq] at h
        subst h
        have hfold : st.url = (pyLines blob).foldl urlUpd none := by
          rw [hst]; exact foldl_paramStep_url _ _
        unfold lastUrlValue
        rw [← hfold, hu]

/-- Claim C3, counterexample to the original statement: a `url` line with a
trailing space yields a host with that trailing space preserved, not
stripped. -/
theorem c3_counterexample :
    (SSHConfigEntry.init "PUBKEY" "op://Vault/Key/f" "url example.com ").map (fun e => e.url)
        = .ok "example.com "
      ∧ "example.com " ≠ "example.com" :=
  ⟨by decide, by decide⟩

/-- Claim C3, witness: the amended theorem applied to a concrete entry. -/
theorem c3_witness :
    lastUrlValue "url example.com"
      = some (SSHConfigEntry.mk "PUBKEY" "Key" none none none "example.com" []).url :=
  c3_host_is_last_url_verbatim "PUBKEY" "op://Vault/Key/field" "url example.com"
    ⟨"PUBKEY", "Key", none, none, none, "example.com", []⟩ (by decide)

/-- Claim C4 (amended): a blob without a `url` line always makes
construction fail; when the reference matched the pattern and every line
contains a space, the failure is the explicit `ValueError` naming the entry
by the key-name label in effect.  Otherwise construction fails earlier — an
`AttributeError` for an unmatched reference, or the unpacking `ValueError`
on the first spaceless line — and no message ever contains an explicit
`unknown` marker (see the counterexample). -/
theorem c4_no_url_fails (key ref blob : String) (h : hasUrlLine blob = false) :
    (∃ err, SSHConfigEntry.init key ref blob = .error err)
      ∧ (∀ g, refGroup1 ref = some g → allLinesSpaced blob = true →
          SSHConfigEntry.init key ref blob
            = .error (.valueError (urlMsg (keynameAfter g blob)))) := by
  have hnourl : ∀ l ∈ pyLines blob, lineIsUrl l = false := by
    simpa [hasUrlLine, List.any_eq_false] using h
  constructor
  · cases hg : refGroup1 ref with
    | none => exact ⟨.attributeError, by simp only [SSHConfigEntry.init, hg]⟩
    | some g =>
      cases hp : processParams ⟨key, g, none, none, none, none, []⟩ (pyLines blob) with
      | error er => exact ⟨er, by simp only [SSHConfigEntry.init, hg, hp]⟩
      | ok st =>
        have hst := processParams_ok _ _ _ hp
        have hu : st.url = none := by
          rw [hst, foldl_paramStep_url]
          exact foldl_urlUpd_none _ hnourl
        exact ⟨.valueError (urlMsg st.keyname), by simp only [SSHConfigEntry.init, hg, hp, hu]⟩
  · intro g hg hsp
    have hall : ∀ l ∈ pyLines blob, (splitFirstSpace l).isSome := by
      simpa [allLinesSpaced, List.all_eq_true] using hsp
    have hp := processParams_allSpaced (pyLines blob) ⟨key, g, none, none, none, none, []⟩ hall
    have hu : ((pyLines blob).foldl paramStep ⟨key, g, none, none, none, none, []⟩).url = none := by
      rw [foldl_paramStep_url]
      exact foldl_urlUpd_none _ hnourl
    have hk : ((pyLines blob).foldl paramStep ⟨key, g, none, none, none, none, []⟩).keyname
        = keynameAfter g blob := by
      rw [foldl_paramStep_keyname]; rfl
    simp only [SSHConfigEntry.init, hg, hp, hu, hk]

/-- Claim C4, counterexample to the original statement: the empty blob and
the blob `foo bar` both lack a `url` line, yet the first fails with the
unpacking error (no entry name in any message) and the second — under a
non-matching reference — fails with an `AttributeError` before validation;
neither failure is a validation error naming the entry or saying `unknown`. -/
theorem c4_counterexample :
    hasUrlLine "" = false
      ∧ SSHConfigEntry.init "PUBKEY" "op://Vault/My Key/f" "" = .error (.unpackError "")
      ∧ hasUrlLine "foo bar" = false
      ∧ SSHConfigEntry.init "PUBKEY" "not a reference" "foo bar" = .error .attributeError :=
  ⟨by decide, by decide, by decide, by decide⟩

/-- Claim C4, witness: the amended theorem applied to a concrete blob. -/
theorem c4_witness :
    (∃ err, SSHConfigEntry.init "PUBKEY" "op://Vault/My Key/f" "foo bar" = .error err)
      ∧ (∀ g, refGroup1 "op://Vault/My Key/f" = some g → allLinesSpaced "foo bar" = true →
          SSHConfigEntry.init "PUBKEY" "op://Vault/My Key/f" "foo bar"
            = .error (.valueError (urlMsg (keynameAfter g "foo bar")))) :=
  c4_no_url_fails "PUBKEY" "op://Vault/My Key/f" "foo bar" (by decide)

/-- Running the parameter loop on a line list and on the same list with the
lines kept by `keepLine` filtered in: the two runs fail with the same error
or end in states that agree on everything but the extra-attribute map. -/
theorem processRel (ps : List String) : ∀ s t : ParamState, agreeCore s t →
    match processParams s ps, processParams t (ps.filter keepLine) with
    | .ok s', .ok t' => agreeCore s' t'
    | .error e1, .error e2 => e1 = e2
    | _, _ => False := by
  induction ps with
  | nil => intro s t h; exact h
  | cons p rest ih =>
    intro s t h
    by_cases hk : keepLine p = true
    · rw [List.filter_cons_of_pos hk]
      cases hs : splitFirstSpace p with
      | none => simp [processParams, hs]
      | some kv =>
        have h' := setAttr_agree s t h kv.1 kv.2
        have hrec := ih (setAttr s kv.1 kv.2) (setAttr t kv.1 kv.2) h'
        simpa [processParams, hs] using hrec
    · have hk' : keepLine p = false := by simpa using hk
      rw [List.filter_cons_of_neg (by simp [hk'])]
      cases hs : splitFirstSpace p with
      | none => unfold keepLine at hk'; rw [hs] at hk'; simp at hk'
      | some kv =>
        have hunrec : ¬(kv.1 = "options" ∨ kv.1 = "user" ∨ kv.1 = "aliases" ∨ kv.1 = "url" ∨
            kv.1 = "key" ∨ kv.1 = "keyname") := by
          unfold keepLine at hk'
          simp only [hs] at hk'
          intro hcon
          have : (kv.1 = "options" ∨ kv.1 = "user" ∨ kv.1 = "aliases" ∨ kv.1 = "url" ∨
              kv.1 = "key" ∨ kv.1 = "keyname" ∨ kv.1 = "serialize" ∨ kv.1 = "_make_key") := by
            tauto
          rw [if_pos this] at hk'
          simp at hk'
        have hstep : processParams s (p :: rest) = processParams (setAttr s kv.1 kv.2) rest := by
          simp [processParams, hs]
        rw [hstep]
        apply ih
        rw [setAttr_unrec s kv.1 kv.2 hunrec]
        obtain ⟨a1, a2, a3, a4, a5, a6⟩ := h
        exact ⟨a1, a2, a3, a4, a5, a6⟩

/-- Claim C5 (amended): lines whose field name is neither a recognized name
(`options`, `user`, `aliases`, `url`) nor an attribute or method name the
class itself uses (`key`, `keyname`, `serialize`, `_make_key`) are stored as
extra attributes and have no effect on the serialized stanza or the written
key file: construction on the blob and on the blob with those lines removed
fails identically or produces identical serialization output.  The original
claim, which excepted only the four recognized names, is false: a `keyname`
or `key` line is unrecognized by serialization yet changes the output (see
the counterexample). -/
theorem c5_unrecognized_lines_inert (key ref blob blob' p : String)
    (h : pyLines blob' = (pyLines blob).filter keepLine) :
    (SSHConfigEntry.init key ref blob).map (fun e => (e.serialize p, e.make_key p))
      = (SSHConfigEntry.init key ref blob').map (fun e => (e.serialize p, e.make_key p)) := by
  unfold SSHConfigEntry.init
  cases hg : refGroup1 ref with
  | none => simp [hg]
  | some g =>
    simp only [hg, h]
    have R := processRel (pyLines blob) ⟨key, g, none, none, none, none, []⟩
      ⟨key, g, none, none, none, none, []⟩ ⟨rfl, rfl, rfl, rfl, rfl, rfl⟩
    cases h1 : processParams ⟨key, g, none, none, none, none, []⟩ (pyLines blob) with
    | error e1 =>
      cases h2 : processParams ⟨key, g, none, none, none, none, []⟩ ((pyLines blob).filter keepLine) with
      | error e2 =>
        rw [h1, h2] at R
        have he : e1 = e2 := R
        subst he
        simp [h1, h2]
      | ok t' =>
        rw [h1, h2] at R
        exact R.elim
    | ok s' =>
      cases h2 : processParams ⟨key, g, none, none, none, none, []⟩ ((pyLines blob).filter keepLine) with
      | error e2 =>
        rw [h1, h2] at R
        exact R.elim
      | ok t' =>
        rw [h1, h2] at R
        have R' : agreeCore s' t' := R
        obtain ⟨a1, a2, a3, a4, a5, a6⟩ := R'
        simp only [h1, h2]
        rw [← a6]
        cases hu : s'.url with
        | none => simp only [hu, a2]
        | some u =>
          simp only [hu]
          simp [Except.map, SSHConfigEntry.serialize, SSHConfigEntry.make_key, a1, a2, a3, a4, a5]

/-- Claim C5, counterexample to the original statement: `keyname` is not
one of the four recognized field names, yet a `keyname evil` line changes
both the serialized stanza (its IdentityFile path) and the key-file name. -/
theorem c5_counterexample :
    (SSHConfigEntry.init "PUBKEY" "op://Vault/Key/f" "url example.com\nkeyname evil").map
        (fun e => (e.serialize "/home/u/.ssh", e.make_key "/home/u/.ssh"))
      ≠ (SSHConfigEntry.init "PUBKEY" "op://Vault/Key/f" "url example.com").map
        (fun e => (e.serialize "/home/u/.ssh", e.make_key "/home/u/.ssh")) := by decide

/-- Claim C5, witness: removing a genuinely unrecognized `foo bar` line
leaves the serialization output and key file unchanged. -/
theorem c5_witness :
    (SSHConfigEntry.init "PUBKEY" "op://Vault/Key/f" "url example.com\nfoo bar").map
        (fun e => (e.serialize "/home/u/.ssh", e.make_key "/home/u/.ssh"))
      = (SSHConfigEntry.init "PUBKEY" "op://Vault/Key/f" "url example.com").map
        (fun e => (e.serialize "/home/u/.ssh", e.make_key "/home/u/.ssh")) :=
  c5_unrecognized_lines_inert "PUBKEY" "op://Vault/Key/f" "url example.com\nfoo bar"
    "url example.com" "/home/u/.ssh" (by decide)

/-- Claim C6 (code bug): the blob splits on newlines, so a trailing newline
produces an empty final line, and the code then crashes unpacking
`param.split(" ", 1)` on it — construction fails where the claim (and the
specification, which calls this crash a bug) says empty lines are ignored. -/
theorem c6_empty_line_crashes :
    pyLines "url example.com\n" = ["url example.com", ""]
      ∧ SSHConfigEntry.init "PUBKEY" "op://Vault/Key/f" "url example.com\n"
          = .error (.unpackError "") :=
  ⟨by decide, by decide⟩

/-- Lowercasing keeps the stripped characters: every character the prompt
strips is unchanged by `str.lower`. -/
theorem toLower_pySpace (c : Char) (h : isPySpace c = true) : Char.toLower c = c := by
  have hc : c = ' ' ∨ c = '\t' ∨ c = '\n' ∨ c = '\r' ∨ c = '\x0b' ∨ c = '\x0c' := by
    simpa [isPySpace, Bool.or_eq_true, decide_eq_true_eq, or_assoc] using h
  rcases hc with h | h | h | h | h | h <;> subst h <;> decide

/-- Dropping leading strip characters skips a whitespace-only prefix. -/
theorem dropWhile_spaces (w r : List Char) (hw : ∀ c ∈ w, isPySpace c = true) :
    (w ++ r).dropWhile isPySpace = r.dropWhile isPySpace := by
  induction w with
  | nil => rfl
  | cons c cs ih =>
    have hc := hw c (by simp)
    simp only [List.cons_append, List.dropWhile_cons, hc, if_true]
    exact ih (fun x hx => hw x (by simp [hx]))

/-- A capital `N` wrapped in any surrounding whitespace lowers and strips
to the single-letter answer `n`. -/
theorem lowerStrip_wrapN (w1 w2 : List Char) (hw1 : ∀ c ∈ w1, isPySpace c = true)
    (hw2 : ∀ c ∈ w2, isPySpace c = true) :
    lowerStrip (String.mk (w1 ++ 'N' :: w2)) = "n" := by
  unfold lowerStrip pyLower pyStrip
  have hmap1 : ∀ c ∈ w1.map Char.toLower, isPySpace c = true := by
    intro c hc
    obtain ⟨a, ha, rfl⟩ := List.mem_map.mp hc
    rw [toLower_pySpace a (hw1 a ha)]
    exact hw1 a ha
  have hmap2 : ∀ c ∈ w2.map Char.toLower, isPySpace c = true := by
    intro c hc
    obtain ⟨a, ha, rfl⟩ := List.mem_map.mp hc
    rw [toLower_pySpace a (hw2 a ha)]
    exact hw2 a ha
  show String.mk _ = "n"
  congr 1
  show ((((w1 ++ 'N' :: w2).map Char.toLower).dropWhile isPySpace).reverse.dropWhile
    isPySpace).reverse = ['n']
  rw [List.map_append, List.map_cons]
  have hN : Char.toLower 'N' = 'n' := by decide
  rw [hN]
  rw [dropWhile_spaces _ _ hmap1]
  rw [List.dropWhile_cons]
  have hn : isPySpace 'n' = false := by decide
  rw [hn]
  simp only [if_false, Bool.false_eq_true, List.reverse_cons]
  rw [dropWhile_spaces _ _ (fun c hc => hmap2 c (List.mem_reverse.mp hc))]
  rfl

/-- Claim C7: after lowercasing and stripping, the confirmation prompt
proceeds on `y` or empty input, exits with status zero on `n` (in any
letter case, with any surrounding whitespace), and repeats on every other
answer; an exit answer means `main` never reaches `make_config`, the only
filesystem mutation. -/
theorem c7_confirm_prompt (s : String) (w1 w2 : List Char)
    (hw1 : ∀ c ∈ w1, isPySpace c = true) (hw2 : ∀ c ∈ w2, isPySpace c = true)
    (inputs : List String) :
    (confirmStep s = .proceed ↔ (lowerStrip s = "y" ∨ lowerStrip s = ""))
      ∧ (confirmStep s = .exitZero ↔ lowerStrip s = "n")
      ∧ (confirmStep s = .retry ↔
          ¬(lowerStrip s = "y" ∨ lowerStrip s = "" ∨ lowerStrip s = "n"))
      ∧ confirmStep (String.mk (w1 ++ 'N' :: w2)) = .exitZero
      ∧ (confirmStep s = .retry → promptLoop (s :: inputs) = promptLoop inputs)
      ∧ (confirmStep s = .proceed → promptLoop (s :: inputs) = some true)
      ∧ (promptLoop inputs = some false → mainMutates true inputs = false) := by
  refine ⟨?_, ?_, ?_, ?_, ?_, ?_, ?_⟩
  · constructor
    · intro h
      unfold confirmStep at h
      split_ifs at h with h1 h2
      exact h1
    · intro h1
      unfold confirmStep
      rw [if_pos h1]
  · constructor
    · intro h
      unfold confirmStep at h
      split_ifs at h with h1 h2
      exact h2
    · intro h2
      have h1 : ¬(lowerStrip s = "y" ∨ lowerStrip s = "") := by rw [h2]; decide
      unfold confirmStep
      rw [if_neg h1, if_pos h2]
  · constructor
    · intro h hcon
      unfold confirmStep at h
      split_ifs at h with h1 h2
      rcases hcon with hc | hc | hc
      · exact h1 (Or.inl hc)
      · exact h1 (Or.inr hc)
      · exact h2 hc
    · intro h
      push_neg at h
      obtain ⟨hy, he, hn⟩ := h
      unfold confirmStep
      rw [if_neg (by tauto), if_neg hn]
  · simp [confirmStep, lowerStrip_wrapN w1 w2 hw1 hw2]
  · intro h
    simp only [promptLoop, h]
  · intro h
    simp only [promptLoop, h]
  · intro h
    simp [mainMutates, h]

/-- Claim C7, witness: the theorem applied to the answer `x` (which
repeats), the whitespace wrap `" N<TAB>"` (which exits), and the remaining
input stream `["n"]`. -/
theorem c7_witness :
    (confirmStep "x" = .proceed ↔ (lowerStrip "x" = "y" ∨ lowerStrip "x" = ""))
      ∧ (confirmStep "x" = .exitZero ↔ lowerStrip "x" = "n")
      ∧ (confirmStep "x" = .retry ↔
          ¬(lowerStrip "x" = "y" ∨ lowerStrip "x" = "" ∨ lowerStrip "x" = "n"))
      ∧ confirmStep (String.mk ([' '] ++ 'N' :: ['\t'])) = .exitZero
      ∧ (confirmStep "x" = .retry → promptLoop ("x" :: ["n"]) = promptLoop ["n"])
      ∧ (confirmStep "x" = .proceed → promptLoop ("x" :: ["n"]) = some true)
      ∧ (promptLoop ["n"] = some false → mainMutates true ["n"] = false) :=
  c7_confirm_prompt "x" [' '] ['\t'] (by decide) (by decide) ["n"]

/-- Every serialized stanza contains the capital letter of its
IdentityFile line. -/
theorem serialize_has_F (e : SSHConfigEntry) (p : String) : 'F' ∈ (e.serialize p).data := by
  unfold SSHConfigEntry.serialize
  simp only [strDataAppend, List.mem_append]
  have hmem : 'F' ∈ ("\tIdentityFile \"" : String).data := by decide
  tauto

/-- No serialized stanza equals the global wildcard stanza, which has no
capital `F`. -/
theorem serialize_ne_global (e : SSHConfigEntry) (p : String) : e.serialize p ≠ globalStanza := by
  intro h
  have hF := serialize_has_F e p
  rw [h] at hF
  exact absurd hF (by decide)

/-- The per-entry section of the write sequence never writes the global
wildcard stanza. -/
theorem countOcc_entrySection (es : List SSHConfigEntry) (p : String) :
    countOcc globalStanza (entrySectionWrites es p) = 0 := by
  induction es with
  | nil => rfl
  | cons e rest ih =>
    simp only [entrySectionWrites, countOcc]
    rw [if_neg (by decide), if_neg (serialize_ne_global e p), ih]

/-- Claim C8: when not under WSL, `make_config` writes the global wildcard
stanza (with the IdentityAgent line for the fixed agent socket) exactly
once, after the two header lines and before any entry stanza; under WSL no
write equals that stanza. -/
theorem c8_global_stanza (entries : List SSHConfigEntry) (p : String) :
    makeConfigWrites false entries p
        = headerWrite1 :: headerWrite2 :: globalStanza :: entrySectionWrites entries p
      ∧ makeConfigWrites true entries p
        = headerWrite1 :: headerWrite2 :: entrySectionWrites entries p
      ∧ countOcc globalStanza (makeConfigWrites false entries p) = 1
      ∧ countOcc globalStanza (makeConfigWrites true entries p) = 0 := by
  refine ⟨rfl, rfl, ?_, ?_⟩
  · show countOcc globalStanza
      (headerWrite1 :: headerWrite2 :: globalStanza :: entrySectionWrites entries p) = 1
    simp [countOcc, headerWrite1, headerWrite2, globalStanza]
    exact countOcc_entrySection entries p
  · show countOcc globalStanza
      (headerWrite1 :: headerWrite2 :: entrySectionWrites entries p) = 0
    simp [countOcc, headerWrite1, headerWrite2, globalStanza]
    exact countOcc_entrySection entries p

/-- Claim C9: serialization is deterministic — serializing the same entry
sequence twice, pointwise, yields identical text; indeed the returned text
does not depend on the path argument at all (the path only names the key
file written by the `_make_key` side effect). -/
theorem c9_serialize_deterministic (entries : List SSHConfigEntry) (p q : String) :
    entries.map (fun e => e.serialize p) = entries.map (fun e => e.serialize p)
      ∧ entries.map (fun e => e.serialize p) = entries.map (fun e => e.serialize q) :=
  ⟨rfl, rfl⟩

/-- Claim C10: with no aliases set, the serialized stanza starts with the
line `Host <host> ` — a trailing space always sits between the host value
and the newline. -/
theorem c10_host_line_trailing_space (e : SSHConfigEntry) (p : String) (h : e.aliases = none) :
    e.serialize p = "Host " ++ e.url ++ " \n" ++ serializeTail e := by
  unfold SSHConfigEntry.serialize serializeTail
  rw [h]
  apply strExt
  simp [strDataAppend, aliasText, List.append_assoc]

/-- Claim C10, witness: the theorem applied to a concrete alias-free entry. -/
theorem c10_witness :
    (SSHConfigEntry.mk "PUBKEY" "Key" none none none "example.com" []).serialize "/home/u/.ssh"
      = "Host " ++ (SSHConfigEntry.mk "PUBKEY" "Key" none none none "example.com" []).url ++ " \n"
        ++ serializeTail (SSHConfigEntry.mk "PUBKEY" "Key" none none none "example.com" []) :=
  c10_host_line_trailing_space ⟨"PUBKEY", "Key", none, none, none, "example.com", []⟩
    "/home/u/.ssh" rfl
